import Mathlib

/-!
Verification development for the searcap repository: a collection of
near-duplicate Puppeteer + Firebase scripts (capture.js variants,
capture2.js variants) that locate advertising / price-comparison sections
on Naver search result pages, capture screenshots through several
strategies, and upload images plus metadata to Firebase.

The scripts are shallowly embedded: pure computations (keyword parsing,
clip arithmetic, device-scale-factor parsing, selector synthesis) become
Lean functions; browser and Firebase interactions become explicit event
traces parameterised by oracles recording whether each external call
succeeds; machine numbers are modelled by Int/Nat, with JavaScript NaN
modelled as the `none` case of `Option Int`.
-/

namespace Searcap

/-! ## JavaScript-level helpers -/

/-- Truthiness of an environment variable / CLI argument: `undefined` and
the empty string are falsy, every other string is truthy. -/
def jsTruthy : Option String → Bool
  | none => false
  | some s => s ≠ ""

/-- `value || defaultStr` on strings: returns the default when the value is
absent or empty (falsy). -/
def jsOrDefault (o : Option String) (d : String) : String :=
  match o with
  | none => d
  | some s => if s = "" then d else s

/-- Does the second list start with the first? -/
def startsList : List Char → List Char → Bool
  | [], _ => true
  | _ :: _, [] => false
  | p :: ps, c :: cs => (p = c) && startsList ps cs

/-- Substring occurrence on character lists. -/
def subList (pat : List Char) : List Char → Bool
  | [] => pat.isEmpty
  | c :: cs => startsList pat (c :: cs) || subList pat cs

/-- Substring test, used to model `contains(normalize-space(), text)` in the
XPath queries. -/
def strContains (s pat : String) : Bool :=
  subList pat.data s.data

/-- Numeric value of a decimal digit character. -/
def digitVal (c : Char) : Nat := c.toNat - 48

/-- `parseInt(s, 10)`: skip leading whitespace, read an optional sign and a
maximal run of decimal digits; `none` models the NaN result produced when no
digit is found. -/
def jsParseInt10 (s : String) : Option Int :=
  let cs := s.data.dropWhile Char.isWhitespace
  let signed : Int × List Char :=
    match cs with
    | '-' :: rest => (-1, rest)
    | '+' :: rest => (1, rest)
    | rest => (1, rest)
  let digs := signed.2.takeWhile Char.isDigit
  if digs.isEmpty then none
  else some (signed.1 * Int.ofNat (digs.foldl (fun acc c => acc * 10 + digitVal c) 0))

/-! ## Device scale factor (capture2.js line 62, part_000 line 51)

`const dsf = Math.max(1, Math.min(6, parseInt(process.env.DEVICE_SCALE_FACTOR || '3', 10)));`

`Math.min` and `Math.max` both return NaN when an argument is NaN, so the
NaN case (`none`) propagates through the clamp. -/

def dsfOf (env : Option String) : Option Int :=
  match jsParseInt10 (jsOrDefault env "3") with
  | none => none
  | some v => some (max 1 (min 6 v))

/-! ## Keyword-list parsing (all file variants)

Every variant computes
`(process.env.KEYWORDS || '').split(',').map(s => s.trim()).filter(Boolean)`. -/

/-- The parsing recipe in the spec's words: split on a comma, trim each
segment and drop the empty strings. -/
def splitTrimDropEmpty (env : Option String) : List String :=
  (((env.getD "").splitOn ",").map String.trim).filter (fun k => k ≠ "")

/-- capture.js, `main`, lines 142-146. -/
def keywordsCaptureMain (env : Option String) : List String :=
  let keywordsEnv := env.getD ""
  ((keywordsEnv.splitOn ",").map (fun k => k.trim)).filter (fun k => k ≠ "")

/-- capture2.js, CLI entry, lines 551-554. -/
def keywordsCapture2Cli (env : Option String) : List String :=
  (((env.getD "").splitOn ",").map (fun s => s.trim)).filter (fun s => s ≠ "")

/-- part_000, `cli`, lines 468-471. -/
def keywordsPart000Cli (env : Option String) : List String :=
  (((env.getD "").splitOn ",").map (fun s => s.trim)).filter (fun s => s ≠ "")

/-- part_001, `cli`, lines 441-444. -/
def keywordsPart001Cli (env : Option String) : List String :=
  (((env.getD "").splitOn ",").map (fun s => s.trim)).filter (fun s => s ≠ "")

/-- part_002, entry IIFE, line 99. -/
def keywordsPart002Entry (env : Option String) : List String :=
  (((env.getD "").splitOn ",").map (fun s => s.trim)).filter (fun s => s ≠ "")

/-- part_003, entry IIFE, line 114 (`.filter(k => k)`, the same Boolean
filter). -/
def keywordsPart003Entry (env : Option String) : List String :=
  (((env.getD "").splitOn ",").map (fun k => k.trim)).filter (fun k => k ≠ "")

/-- part_004, main IIFE, lines 139-140. -/
def keywordsPart004Main (env : Option String) : List String :=
  let keywordsEnv := env.getD ""
  ((keywordsEnv.splitOn ",").map (fun s => s.trim)).filter (fun s => s ≠ "")

/-- part_005, entry IIFE, lines 504-507. -/
def keywordsPart005Entry (env : Option String) : List String :=
  (((env.getD "").splitOn ",").map (fun s => s.trim)).filter (fun s => s ≠ "")

/-! ## Clip arithmetic (capture2.js `getClipForSection` lines 327-359,
part_000 `getClipFromRect` lines 260-292)

The page-side evaluate returns integer page coordinates (`Math.floor` /
`Math.ceil`) together with the document dimensions, so the arithmetic is
exact integer arithmetic. -/

/-- The rectangle measured inside the page: element position and size in
page coordinates plus the document dimensions. -/
structure SectionRect where
  x : Int
  y : Int
  width : Int
  height : Int
  docWidth : Int
  docHeight : Int
deriving Repr, DecidableEq

/-- A screenshot clip rectangle. -/
structure Clip where
  x : Int
  y : Int
  width : Int
  height : Int
deriving Repr, DecidableEq

/-- capture2.js `getClipForSection`, the arithmetic applied to a non-null
measured rectangle. -/
def getClipForSection (rect : SectionRect) (pad : Int) : Clip :=
  let cx := max 0 (rect.x - pad)
  let cy := max 0 (rect.y - pad)
  let w0 := max 1 (rect.width + pad * 2)
  let h0 := max 1 (rect.height + pad * 2)
  { x := cx
    y := cy
    width := min w0 (rect.docWidth - cx)
    height := min h0 (rect.docHeight - cy) }

/-- part_000 `getClipFromRect`: textually identical arithmetic. -/
def getClipFromRect (rect : SectionRect) (pad : Int) : Clip :=
  let cx := max 0 (rect.x - pad)
  let cy := max 0 (rect.y - pad)
  let w0 := max 1 (rect.width + pad * 2)
  let h0 := max 1 (rect.height + pad * 2)
  { x := cx
    y := cy
    width := min w0 (rect.docWidth - cx)
    height := min h0 (rect.docHeight - cy) }

/-- Both functions first check the evaluated rect for null and throw
(`rect is null`). -/
def getClipForSectionChecked (rect : Option SectionRect) (pad : Int) : Except String Clip :=
  match rect with
  | none => Except.error "rect is null"
  | some r => Except.ok (getClipForSection r pad)

/-! ## DOM model

A document is an arena of nodes.  Each node records the data the scripts
inspect: tag name (`nodeName`), id attribute, class list, the
normalize-space text content, the number of `<a>` descendants (what
`querySelectorAll('a').length` counts), the parent index and the list of
child indices (`parentElement` / `parent.children`). -/

structure DomNode where
  nodeName : String
  idAttr : String
  classList : List String
  normText : String
  anchorCount : Nat
  parent : Option Nat
  childIdx : List Nat
deriving Repr, DecidableEq

structure Document where
  nodes : List DomNode
deriving Repr

def Document.node? (d : Document) (i : Nat) : Option DomNode :=
  d.nodes[i]?

def Document.parentAt (d : Document) (i : Nat) : Option Nat :=
  match d.node? i with
  | some n => n.parent
  | none => none

def Document.anchorsAt (d : Document) (i : Nat) : Nat :=
  match d.node? i with
  | some n => n.anchorCount
  | none => 0

def Document.childrenAt (d : Document) (i : Nat) : List Nat :=
  match d.node? i with
  | some n => n.childIdx
  | none => []

def Document.nameAt (d : Document) (i : Nat) : String :=
  match d.node? i with
  | some n => n.nodeName
  | none => ""

def parentOk (d : Document) (i : Nat) : Option Nat → Bool
  | none => true
  | some p => decide (p < i) && decide (i ∈ d.childrenAt p)

def nodeOk (d : Document) (i : Nat) (n : DomNode) : Bool :=
  parentOk d i n.parent && decide n.childIdx.Nodup &&
    n.childIdx.all fun j => decide (j < d.nodes.length)

def entryOk (d : Document) (i : Nat) : Option DomNode → Bool
  | none => true
  | some n => nodeOk d i n

/-- Well-formedness of a document arena, as holds for any real DOM tree:
a parent occurs earlier in the arena than its child (document order), the
parent's child list contains the child, and child lists have no
duplicates. -/
def Document.wf (d : Document) : Bool :=
  (List.range d.nodes.length).all fun i => entryOk d i (d.nodes[i]?)

/-! ## findSection (capture.js lines 41-73)

`page.$(fallbackSelector)` is a browser query whose outcome we model as an
oracle: it can find an element, find nothing, or throw (an invalid
selector). The text search models
`page.$x("//*[contains(normalize-space(), headingText)]")`: the first node
in document order whose normalized text contains the heading text. -/

inductive QueryOutcome where
  | found (i : Nat)
  | missing
  | thrown
deriving Repr, DecidableEq

/-- First node (in document order) whose normalize-space text contains the
heading text. -/
def textSearch (d : Document) (headingText : String) : Option Nat :=
  (List.range d.nodes.length).find? fun i =>
    match d.nodes[i]? with
    | some n => strContains n.normText headingText
    | none => false

/-- The upward walk inside `heading.evaluateHandle`: starting from
`node.parentElement`, return the first ancestor with at least two anchor
descendants, or the heading node itself when the walk exhausts the
ancestors.  Fuel bounds the walk; `d.nodes.length` is enough fuel for any
well-formed document. -/
def climbUp (d : Document) : Nat → Option Nat → Nat → Nat
  | _, none, node => node
  | 0, some _, node => node
  | Nat.succ fuel, some el, node =>
    if 2 ≤ d.anchorsAt el then el else climbUp d fuel (d.parentAt el) node

/-- The `page.$(fallbackSelector)` step of `findSection`: `if
(fallbackSelector) { try { handle = await page.$(...) } catch (_) {} }`. -/
def queryHandle (query : String → QueryOutcome) (fallbackSelector : String) : Option Nat :=
  if fallbackSelector = "" then none
  else
    match query fallbackSelector with
    | QueryOutcome.found i => some i
    | QueryOutcome.missing => none
    | QueryOutcome.thrown => none

/-- The text-search fallback of `findSection`: null when no node contains
the heading text, otherwise the result of the upward walk from the
heading. -/
def textResult (d : Document) (headingText : String) : Option Nat :=
  match textSearch d headingText with
  | none => none
  | some heading => some (climbUp d d.nodes.length (d.parentAt heading) heading)

/-- capture.js `findSection`.  `query` is the `page.$` oracle; a thrown
selector error is swallowed and treated like a miss. -/
def findSection (d : Document) (query : String → QueryOutcome)
    (headingText fallbackSelector : String) : Option Nat :=
  match queryHandle query fallbackSelector with
  | some h => some h
  | none => textResult d headingText

/-- The chain `i, parent(i), parent(parent(i)), ...` starting at an
optional node, truncated by fuel. -/
def chainFrom (d : Document) : Nat → Option Nat → List Nat
  | _, none => []
  | 0, some _ => []
  | Nat.succ fuel, some i => i :: chainFrom d fuel (d.parentAt i)

/-- The proper ancestors of a node, nearest first. -/
def domAncestors (d : Document) (i : Nat) : List Nat :=
  chainFrom d d.nodes.length (d.parentAt i)

/-- The nearest ancestor with at least two anchor descendants, if any. -/
def nearestAnchorAncestor (d : Document) (i : Nat) : Option Nat :=
  (domAncestors d i).find? fun a => decide (2 ≤ d.anchorsAt a)

/-! ## Selector synthesis (capture2.js `getUniqueSelector` lines 242-268,
part_001 `makeSel` lines 185-205)

`CSS.escape` is a host library call and is passed in as a function
parameter `esc`. -/

/-- `toLowerCase()`: characterwise lowering (structural implementation of
`String.toLower`). -/
def lowerStr (s : String) : String :=
  String.mk (s.data.map Char.toLower)

/-- Tag-name comparison used by capture2.js:
`ch.nodeName.toLowerCase() === current.nodeName.toLowerCase()`. -/
def sameTagCI (a b : String) : Bool :=
  lowerStr a = lowerStr b

/-- Tag-name comparison used by part_001: `x.nodeName === cur.nodeName`. -/
def sameTagRaw (a b : String) : Bool :=
  a = b

def idxOfAux (x : Nat) : List Nat → Nat → Option Nat
  | [], _ => none
  | a :: rest, k => if a = x then some k else idxOfAux x rest (k + 1)

/-- JavaScript `Array.prototype.indexOf`: -1 when the element is absent. -/
def jsIndexOf (l : List Nat) (x : Nat) : Int :=
  match idxOfAux x l 0 with
  | some k => (k : Int)
  | none => -1

/-- The `'.' + classes.slice(0, 2).map(CSS.escape).join('.')` suffix,
empty when the class list is empty. -/
def classPart (esc : String → String) (cls : List String) : String :=
  if cls.length = 0 then "" else "." ++ String.intercalate "." ((cls.take 2).map esc)

/-- The same-tag children of the parent of node `i` (the `siblings`
array), for a given tag comparison. -/
def sameTagSibs (sameTag : String → String → Bool) (d : Document) (p i : Nat) : List Nat :=
  (d.childrenAt p).filter fun c => sameTag (d.nameAt c) (d.nameAt i)

/-- The 1-based position used in `:nth-of-type(...)`:
`siblings.indexOf(current) + 1`. -/
def nthIndex (sameTag : String → String → Bool) (d : Document) (p i : Nat) : Int :=
  jsIndexOf (sameTagSibs sameTag d p i) i + 1

/-- One path segment as the loop body computes it: lowercase tag name,
class suffix, and the `:nth-of-type` suffix when the same-tag sibling
array has more than one element. -/
def segOf (esc : String → String) (sameTag : String → String → Bool)
    (d : Document) (i : Nat) : String :=
  match d.nodes[i]? with
  | none => ""
  | some n =>
    let base := lowerStr n.nodeName ++ classPart esc n.classList
    match n.parent with
    | none => base
    | some p =>
      if 1 < (sameTagSibs sameTag d p i).length then
        base ++ ":nth-of-type(" ++ toString (nthIndex sameTag d p i) ++ ")"
      else base

/-- The `for (...; current && i < depth; ...) parts.unshift(...)` loop:
the resulting `parts` array, deepest ancestor first. -/
def buildParts (esc : String → String) (sameTag : String → String → Bool)
    (d : Document) : Nat → Option Nat → List String
  | _, none => []
  | 0, some _ => []
  | Nat.succ fuel, some i =>
    buildParts esc sameTag d fuel (d.parentAt i) ++ [segOf esc sameTag d i]

/-- capture2.js `getUniqueSelector`: null for a null element, the escaped
id when the element has one, otherwise a path of at most 5 segments. -/
def getUniqueSelector (esc : String → String) (d : Document) (el : Nat) : Option String :=
  match d.nodes[el]? with
  | none => none
  | some n =>
    if n.idAttr ≠ "" then some ("#" ++ esc n.idAttr)
    else some (String.intercalate " > " (buildParts esc sameTagCI d 5 (some el)))

/-- part_001 `makeSel`: the same synthesis with at most 4 segments and the
raw `nodeName` comparison. -/
def makeSel (esc : String → String) (d : Document) (el : Nat) : Option String :=
  match d.nodes[el]? with
  | none => none
  | some n =>
    if n.idAttr ≠ "" then some ("#" ++ esc n.idAttr)
    else some (String.intercalate " > " (buildParts esc sameTagRaw d 4 (some el)))

/-- The claim's sibling condition: the node has at least one sibling (a
distinct child of the same parent) with the same tag name. -/
def hasSameTagSibling (sameTag : String → String → Bool) (d : Document) (i : Nat) : Bool :=
  match d.parentAt i with
  | none => false
  | some p =>
    (d.childrenAt p).any fun j => decide (j ≠ i) && sameTag (d.nameAt j) (d.nameAt i)

/-- A path segment as the claim describes it: the lowercase tag name,
optionally followed by at most the first two CSS-escaped class names, with
an `:nth-of-type(k)` suffix appended exactly when the element has at least
one sibling of the same tag name. -/
def claimSeg (esc : String → String) (sameTag : String → String → Bool)
    (d : Document) (i : Nat) : String :=
  match d.nodes[i]? with
  | none => ""
  | some n =>
    let base := lowerStr n.nodeName ++ classPart esc n.classList
    match n.parent with
    | none => base
    | some p =>
      if hasSameTagSibling sameTag d i then
        base ++ ":nth-of-type(" ++ toString (nthIndex sameTag d p i) ++ ")"
      else base

/-- The claim's description of the whole selector path for a given depth
bound: the segments of the inclusive ancestor chain, deepest ancestor
first, joined by " > ". -/
def claimPath (esc : String → String) (sameTag : String → String → Bool)
    (d : Document) (depth el : Nat) : String :=
  String.intercalate " > "
    (((chainFrom d depth (some el)).map (claimSeg esc sameTag d)).reverse)

/-! ## Capture strategies (capture2.js `runCapture` lines 478-539)

Each strategy is a sequence of browser/upload calls whose overall outcome
(an uploaded URL, or a thrown error message) is given by an oracle. -/

inductive Strategy where
  | captureElement
  | captureRectClip
  | captureRectClipPad
  | captureRectClipHiDpi
  | captureIsolatedDom
deriving Repr, DecidableEq

/-- The `strategies` array of capture2.js lines 506-512, in source order. -/
def strategyOrder : List Strategy :=
  [Strategy.captureElement, Strategy.captureRectClip, Strategy.captureRectClipPad,
   Strategy.captureRectClipHiDpi, Strategy.captureIsolatedDom]

structure StratResult where
  strat : Strategy
  ok : Bool
  info : String
deriving Repr, DecidableEq

/-- The `for (const strategy of strategies)` loop: one attempt per entry;
a throw is caught, recorded as a failure, and the loop continues.  Returns
the `results` array and the list of attempted strategies in order. -/
def strategyLoop (outcome : Strategy → Except String String) :
    List Strategy → List StratResult × List Strategy
  | [] => ([], [])
  | s :: rest =>
    let r : StratResult :=
      match outcome s with
      | Except.ok u => { strat := s, ok := true, info := u }
      | Except.error m => { strat := s, ok := false, info := m }
    let tail := strategyLoop outcome rest
    (r :: tail.1, s :: tail.2)

/-- The selector-resolution retry loop
(`for (let i = 0; i < 3 && !selector; i++)`): the first success among
attempts `0 .. n-1`. -/
def resolveUpTo (resolve : Nat → Option String) : Nat → Option String
  | 0 => none
  | Nat.succ n =>
    match resolveUpTo resolve n with
    | some s => some s
    | none => resolve n

/-- capture2.js `runCapture` after `openSearch` succeeds: resolve the
selector (3 tries), then `page.waitForSelector` (which can throw, aborting
to the outer catch with no strategy attempted), then the strategy loop. -/
def runCapture (resolve : Nat → Option String) (waitOk : Bool)
    (outcome : Strategy → Except String String) : List StratResult × List Strategy :=
  match resolveUpTo resolve 3 with
  | none => ([], [])
  | some _ => if waitOk then strategyLoop outcome strategyOrder else ([], [])

/-! ## Upload / metadata traces of capture.js `captureKeyword`
(lines 82-136)

The per-section body is guarded by one try/catch: a failed screenshot
skips the save and the metadata write, and a failed save skips the
metadata write.  Events record the successful effects in order. -/

inductive FbEvent where
  | shot (sec : String)
  | save (fp : String)
  | addDoc (kw vp sec fp url : String)
deriving Repr, DecidableEq

structure SectionOracle where
  found : Bool
  shotOk : Bool
  saveOk : Bool
  addOk : Bool
deriving Repr, DecidableEq

def publicUrl (bucketName filePath : String) : String :=
  "https://storage.googleapis.com/" ++ bucketName ++ "/" ++ filePath

/-- `${section.label}_${viewport.label}_${keyword}_${timestampLabel}.png` -/
def sectionFilePath (sectionLabel vpLabel keyword tsLabel : String) : String :=
  sectionLabel ++ "_" ++ vpLabel ++ "_" ++ keyword ++ "_" ++ tsLabel ++ ".png"

/-- The events produced by one iteration of the section loop. -/
def captureSection (bucketName keyword vpLabel tsLabel sectionLabel : String)
    (o : SectionOracle) : List FbEvent :=
  if o.found = false then []
  else if o.shotOk = false then []
  else
    let fp := sectionFilePath sectionLabel vpLabel keyword tsLabel
    FbEvent.shot sectionLabel ::
      (if o.saveOk = false then []
       else
        FbEvent.save fp ::
          (if o.addOk = false then []
           else [FbEvent.addDoc keyword vpLabel sectionLabel fp (publicUrl bucketName fp)]))

/-- The two sections of capture.js `captureKeyword` (lines 95-106). -/
def captureJsSections : List String :=
  ["powerlink", "pricecompare"]

/-- The whole section loop of `captureKeyword`. -/
def captureKeywordEvents (bucketName keyword vpLabel tsLabel : String)
    (orc : String → SectionOracle) : List FbEvent :=
  (captureJsSections.map fun sec =>
    captureSection bucketName keyword vpLabel tsLabel sec (orc sec)).flatten

def isAddFor (sec : String) : FbEvent → Bool
  | FbEvent.addDoc _ _ s _ _ => s = sec
  | _ => false

/-- Scan a trace maintaining the set of already-saved file paths; `true`
iff every metadata write is preceded by a successful save of the same
path. -/
def savedBeforeAdd (saved : List String) : List FbEvent → Bool
  | [] => true
  | FbEvent.shot _ :: rest => savedBeforeAdd saved rest
  | FbEvent.save fp :: rest => savedBeforeAdd (fp :: saved) rest
  | FbEvent.addDoc _ _ _ fp _ :: rest => decide (fp ∈ saved) && savedBeforeAdd saved rest

/-- The file paths saved in a trace, pushed onto an accumulator. -/
def pushSaves (saved : List String) : List FbEvent → List String
  | [] => saved
  | FbEvent.save fp :: rest => pushSaves (fp :: saved) rest
  | _ :: rest => pushSaves saved rest

/-! ## The entry-point loop of capture.js `main` (lines 141-164)

`main` iterates keywords in list order and, inside, the viewports
`pc` then `mobile`; each `captureKeyword` call is awaited and wrapped in
try/catch.  Inside `captureKeyword`, `page.goto` (line 89) is *not*
guarded: when it throws, the error propagates to main's catch and
`browser.close()` (line 135) is never reached.  The per-pair oracle
`gotoOk` records whether navigation succeeds. -/

inductive MainEv where
  | start (kw vp : String)
  | fb (kw vp : String) (e : FbEvent)
  | closeBrowser (kw vp : String)
deriving Repr, DecidableEq

def tagOf : MainEv → String × String
  | MainEv.start k v => (k, v)
  | MainEv.fb k v _ => (k, v)
  | MainEv.closeBrowser k v => (k, v)

/-- The events of one `captureKeyword(keyword, vp)` invocation. -/
def captureKeywordTrace (bucketName kw vp ts : String) (gotoOk : Bool)
    (orc : String → SectionOracle) : List MainEv :=
  MainEv.start kw vp ::
    (if gotoOk then
      ((captureKeywordEvents bucketName kw vp ts orc).map (MainEv.fb kw vp)) ++
        [MainEv.closeBrowser kw vp]
    else [])

/-- The `viewports` array: pc before mobile. -/
def viewportLabels : List String :=
  ["pc", "mobile"]

/-- The (keyword, viewport) pairs in processing order. -/
def pairsOf (kws : List String) : List (String × String) :=
  (kws.map fun k => viewportLabels.map fun v => (k, v)).flatten

/-- The full event trace of `main`: the nested keyword/viewport loop. -/
def mainTrace (bucketName ts : String) (kws : List String)
    (gotoOk : String → String → Bool) (orc : String → String → String → SectionOracle) :
    List MainEv :=
  ((pairsOf kws).map fun p =>
    captureKeywordTrace bucketName p.1 p.2 ts (gotoOk p.1 p.2) (orc p.1 p.2)).flatten

/-- The pairs whose processing starts, in trace order. -/
def startsOf (tr : List MainEv) : List (String × String) :=
  tr.filterMap fun e =>
    match e with
    | MainEv.start k v => some (k, v)
    | _ => none

/-- Overlap check: every event belongs to the most recently started
capture; `false` means some event of another pair occurs inside a
capture's span. -/
def noOverlap : Option (String × String) → List MainEv → Bool
  | _, [] => true
  | _, MainEv.start k v :: rest => noOverlap (some (k, v)) rest
  | none, MainEv.fb _ _ _ :: _ => false
  | none, MainEv.closeBrowser _ _ :: _ => false
  | some p, MainEv.fb k v _ :: rest => decide ((k, v) = p) && noOverlap (some p) rest
  | some p, MainEv.closeBrowser k v :: rest => decide ((k, v) = p) && noOverlap (some p) rest

/-! ## The CLI entry of capture2.js (lines 542-572) -/

/-- Target list selection: `--url` wins, then `--keyword`, then the
KEYWORDS list; `none` models `process.exit(1)` on an empty list. -/
def cliTargets (urlArg keywordArg envKeywords : Option String) : Option (List String) :=
  if jsTruthy urlArg then some [urlArg.getD ""]
  else if jsTruthy keywordArg then some [keywordArg.getD ""]
  else if (keywordsCapture2Cli envKeywords).isEmpty then none
  else some (keywordsCapture2Cli envKeywords)

/-- The `for (const t of targets) await runCapture(t)` loop: the sequence
of targets handed to `runCapture`, in order.  The recursion is structural,
so the loop terminates for every finite target list. -/
def runTargetsLoop : List String → List String
  | [] => []
  | t :: rest => t :: runTargetsLoop rest

/-! ## uploadImage (capture2.js lines 82-139) and uploadPNG
(part_001 lines 59-103)

Events record the external calls made, in order; oracles record whether
the fallible ones succeed. -/

inductive UpEvent where
  | localWrite (path : String)
  | bucketSave (path : String)
  | makePublicCall (path : String)
  | signedUrlCall (path : String)
  | firestoreAdd (collection : String) (fp : String)
deriving Repr, DecidableEq

structure UpEnv where
  dryRun : Option String
  useSignedUrl : Option String
  capPfx : String
  bucketName : String
deriving Repr

structure UpOracle where
  saveOk : Bool
  makePublicOk : Bool
  dbReady : Bool
  addOk : Bool
deriving Repr, DecidableEq

structure UpResult where
  url : Option String
  gcsPath : Option String
  localPath : String
deriving Repr, DecidableEq

theorem dropWhile_length_le {α : Type} (p : α → Bool) (l : List α) :
    (l.dropWhile p).length ≤ l.length := by
  induction l with
  | nil => simp [List.dropWhile]
  | cons c rest ih =>
    simp only [List.dropWhile]
    cases p c with
    | true => exact Nat.le_succ_of_le ih
    | false => simp

/-- Replace every maximal run of characters satisfying `p` by the single
character `r`. -/
def collapseRuns (p : Char → Bool) (r : Char) : List Char → List Char
  | [] => []
  | c :: rest =>
    if p c then r :: collapseRuns p r (rest.dropWhile p)
    else c :: collapseRuns p r rest
termination_by l => l.length
decreasing_by
  all_goals simp only [List.length_cons]
  · exact Nat.lt_succ_of_le (dropWhile_length_le _ _)
  · exact Nat.lt_succ_self _

/-- The characters removed by capture2.js `slug`
(`/[\\\/\?<>\:\\*\|\"]+/`). -/
def badChar (c : Char) : Bool :=
  c ∈ [ '\\', '/', '?', '<', '>', ':', '*', '|', '"' ]

/-- capture2.js `slug` (lines 73-79): whitespace runs to `_`, forbidden
characters removed, truncated to 80 characters. -/
def slug2 (s : String) : String :=
  String.mk (((collapseRuns Char.isWhitespace '_' s.data).filter fun c => !badChar c).take 80)

/-- A character kept by part_001 `slug` (`[\w가-힣\-_.]`). -/
def keepChar1 (c : Char) : Bool :=
  c.isAlphanum || c = '_' || c = '-' || c = '.' ||
    (0xAC00 ≤ c.toNat && c.toNat ≤ 0xD7A3)

/-- part_001 `slug` (line 57): runs of other characters to `_`, `_` runs
collapsed, truncated to 100 characters. -/
def slug1 (s : String) : String :=
  String.mk ((collapseRuns (fun c => c = '_') '_'
    (collapseRuns (fun c => !keepChar1 c) '_' s.data)).take 100)

def gcsPathOf (pfx fileName : String) : String :=
  if pfx = "" then fileName else pfx ++ "/" ++ fileName

/-- capture2.js uploadImage file name:
`price-search-${slug(keyword)}-${ts}-${variant}.png`. -/
def fileName2 (keyword variant ts : String) : String :=
  "price-search-" ++ slug2 keyword ++ "-" ++ ts ++ "-" ++ variant ++ ".png"

/-- part_001 uploadPNG file name:
`price-mobile_vp_${slug(keyword)}_${ts}_${variant}.png`. -/
def fileName1 (keyword variant ts : String) : String :=
  "price-mobile_vp_" ++ slug1 keyword ++ "_" ++ ts ++ "_" ++ variant ++ ".png"

/-- The URL-producing calls of uploadImage / uploadPNG after a successful
bucket save: signed URL when USE_SIGNED_URL is '1', otherwise makePublic
with a signed-URL fallback.  Returns the events and the resulting URL. -/
def urlEventsOf (env : UpEnv) (orc : UpOracle) (gp : String) : List UpEvent × String :=
  if env.useSignedUrl = some "1" then
    ([UpEvent.signedUrlCall gp], "signed:" ++ gp)
  else if orc.makePublicOk then
    ([UpEvent.makePublicCall gp], publicUrl env.bucketName gp)
  else
    ([UpEvent.makePublicCall gp, UpEvent.signedUrlCall gp], "signed:" ++ gp)

/-- capture2.js `uploadImage`: always writes the PNG locally; under a
truthy DRY_RUN it returns a null url at once; otherwise it saves to the
bucket (a throw propagates), determines a URL, and, when `db` is
initialised, attempts one Firestore add (its failure is caught). -/
def uploadImage (env : UpEnv) (orc : UpOracle) (keyword variant ts : String) :
    Except String UpResult × List UpEvent :=
  let gp := gcsPathOf env.capPfx (fileName2 keyword variant ts)
  let lp := "captures/" ++ fileName2 keyword variant ts
  if jsTruthy env.dryRun then
    (Except.ok { url := none, gcsPath := some gp, localPath := lp },
     [UpEvent.localWrite lp])
  else if orc.saveOk = false then
    (Except.error "save failed", [UpEvent.localWrite lp, UpEvent.bucketSave gp])
  else
    let urlPart := urlEventsOf env orc gp
    let evs := UpEvent.localWrite lp :: UpEvent.bucketSave gp :: urlPart.1 ++
      (if orc.dbReady then [UpEvent.firestoreAdd "screenshots" gp] else [])
    (Except.ok { url := some urlPart.2, gcsPath := some gp, localPath := lp }, evs)

/-- part_001 `uploadPNG`: writes the PNG locally; only the exact value
`'1'` of DRY_RUN short-circuits with a `file://` url; otherwise bucket
save, URL, and an unguarded Firestore add (its failure propagates). -/
def uploadPNG (env : UpEnv) (orc : UpOracle) (keyword variant ts : String) :
    Except String UpResult × List UpEvent :=
  let lp := "captures/" ++ fileName1 keyword variant ts
  if env.dryRun = some "1" then
    (Except.ok { url := some ("file://" ++ lp), gcsPath := none, localPath := lp },
     [UpEvent.localWrite lp])
  else
    let gp := gcsPathOf env.capPfx (fileName1 keyword variant ts)
    if orc.saveOk = false then
      (Except.error "save failed", [UpEvent.localWrite lp, UpEvent.bucketSave gp])
    else
      let urlPart := urlEventsOf env orc gp
      let evs := UpEvent.localWrite lp :: UpEvent.bucketSave gp :: urlPart.1 ++
        [UpEvent.firestoreAdd "screenshots" gp]
      if orc.addOk = false then (Except.error "firestore failed", evs)
      else (Except.ok { url := some urlPart.2, gcsPath := some gp, localPath := lp }, evs)

def isBucketSave : UpEvent → Bool
  | UpEvent.bucketSave _ => true
  | _ => false

/-! ## Example documents used by the witnesses -/

/-- A small document: a root div with two ul children, the second of which
carries classes and the heading text; anchor counts as a real ad block
would have them. -/
def exDoc : Document :=
  { nodes :=
      [ { nodeName := "DIV", idAttr := "", classList := [], normText := "root 파워링크 x",
          anchorCount := 3, parent := none, childIdx := [1, 2] },
        { nodeName := "UL", idAttr := "", classList := [], normText := "first",
          anchorCount := 0, parent := some 0, childIdx := [] },
        { nodeName := "UL", idAttr := "", classList := ["a", "b", "c"], normText := "파워링크",
          anchorCount := 1, parent := some 0, childIdx := [3] },
        { nodeName := "SPAN", idAttr := "hero", classList := ["x"], normText := "파워링크",
          anchorCount := 0, parent := some 2, childIdx := [] } ] }

/-! ## Well-formedness extraction lemmas -/

theorem wf_node_ok {d : Document} (hwf : d.wf = true) {i : Nat} {n : DomNode}
    (hn : d.nodes[i]? = some n) : nodeOk d i n = true := by
  have hi : i < d.nodes.length := by
    by_contra hge
    rw [List.getElem?_eq_none (Nat.le_of_not_lt hge)] at hn
    cases hn
  have hall := (List.all_eq_true.mp hwf) i (List.mem_range.mpr hi)
  rw [hn] at hall
  exact hall

theorem wf_parent_lt {d : Document} (hwf : d.wf = true) {i : Nat} {n : DomNode}
    (hn : d.nodes[i]? = some n) {p : Nat} (hp : n.parent = some p) : p < i := by
  have h := wf_node_ok hwf hn
  unfold nodeOk at h
  rw [hp] at h
  simp only [parentOk, Bool.and_eq_true, decide_eq_true_eq] at h
  exact h.1.1.1

theorem wf_mem_children {d : Document} (hwf : d.wf = true) {i : Nat} {n : DomNode}
    (hn : d.nodes[i]? = some n) {p : Nat} (hp : n.parent = some p) :
    i ∈ d.childrenAt p := by
  have h := wf_node_ok hwf hn
  unfold nodeOk at h
  rw [hp] at h
  simp only [parentOk, Bool.and_eq_true, decide_eq_true_eq] at h
  exact h.1.1.2

theorem wf_children_nodup {d : Document} (hwf : d.wf = true) (p : Nat) :
    (d.childrenAt p).Nodup := by
  unfold Document.childrenAt Document.node?
  cases hm : d.nodes[p]? with
  | none => simp
  | some m =>
    have h := wf_node_ok hwf hm
    unfold nodeOk at h
    simp only [Bool.and_eq_true, decide_eq_true_eq] at h
    exact h.1.2

/-! ## C1 supporting lemmas -/

theorem climbUp_eq_find (d : Document) :
    ∀ fuel cur node, climbUp d fuel cur node =
      ((chainFrom d fuel cur).find? fun a => decide (2 ≤ d.anchorsAt a)).getD node := by
  intro fuel
  induction fuel with
  | zero =>
    intro cur node
    cases cur with
    | none => simp [climbUp, chainFrom]
    | some el => simp [climbUp, chainFrom]
  | succ f ih =>
    intro cur node
    cases cur with
    | none => simp [climbUp, chainFrom]
    | some el =>
      rw [climbUp, chainFrom]
      by_cases h : 2 ≤ d.anchorsAt el
      · simp [h]
      · rw [if_neg h]
        have hfind : List.find? (fun a => decide (2 ≤ d.anchorsAt a))
            (el :: chainFrom d f (d.parentAt el)) =
            List.find? (fun a => decide (2 ≤ d.anchorsAt a)) (chainFrom d f (d.parentAt el)) :=
          List.find?_cons_of_neg _ (by simpa using h)
        rw [hfind]
        exact ih (d.parentAt el) node

theorem climbUp_from_parent (d : Document) (hd : Nat) :
    climbUp d d.nodes.length (d.parentAt hd) hd =
      (nearestAnchorAncestor d hd).getD hd := by
  unfold nearestAnchorAncestor domAncestors
  exact climbUp_eq_find d d.nodes.length (d.parentAt hd) hd

/-- Fuel-bounded chains are complete on well-formed documents: for a node
index `i`, any fuel of at least `i + 1` yields the same (full) ancestor
chain, because parent indices strictly decrease. -/
theorem chainFrom_stable {d : Document} (hwf : d.wf = true) :
    ∀ i fuel, i + 1 ≤ fuel →
      chainFrom d fuel (some i) = chainFrom d (i + 1) (some i) := by
  intro i
  induction i using Nat.strong_induction_on with
  | _ i ih =>
    intro fuel hfuel
    match fuel, hfuel with
    | Nat.succ f, hfuel =>
      rw [chainFrom, chainFrom]
      cases hp : d.parentAt i with
      | none => rw [chainFrom, chainFrom]
      | some p =>
        have hplt : p < i := by
          unfold Document.parentAt Document.node? at hp
          cases hn : d.nodes[i]? with
          | none => rw [hn] at hp; cases hp
          | some n =>
            rw [hn] at hp
            exact wf_parent_lt hwf hn hp
        have h1 : chainFrom d f (some p) = chainFrom d (p + 1) (some p) :=
          ih p hplt f (Nat.le_of_lt_succ (Nat.lt_of_lt_of_le (Nat.succ_lt_succ hplt) hfuel))
        have h2 : chainFrom d i (some p) = chainFrom d (p + 1) (some p) :=
          ih p hplt i (Nat.succ_le_of_lt hplt)
        rw [h1, h2]

/-! ## C1 -/

/-- C1: capture.js `findSection` (lines 41-73).  (a) Whenever the fallback
CSS selector matches an element (selector errors are swallowed), that
element is returned.  (b) When the selector yields no element, the text
search decides the result: the result is null exactly when the text search
finds nothing, and (c) when a heading node is found the result is the
nearest ancestor with at least two anchor links, or the heading itself
when no such ancestor exists. -/
theorem findSection_spec (d : Document) (query : String → QueryOutcome)
    (headingText fallbackSelector : String) :
    (∀ i, fallbackSelector ≠ "" → query fallbackSelector = QueryOutcome.found i →
      findSection d query headingText fallbackSelector = some i) ∧
    ((fallbackSelector = "" ∨ ∀ i, query fallbackSelector ≠ QueryOutcome.found i) →
      ((findSection d query headingText fallbackSelector = none ↔
          textSearch d headingText = none) ∧
        (∀ hd, textSearch d headingText = some hd →
          findSection d query headingText fallbackSelector =
            some ((nearestAnchorAncestor d hd).getD hd)))) := by
  constructor
  · intro i hne hq
    unfold findSection queryHandle
    rw [if_neg hne, hq]
  · intro hmiss
    have hhandle : queryHandle query fallbackSelector = none := by
      unfold queryHandle
      cases hmiss with
      | inl h => rw [if_pos h]
      | inr h =>
        by_cases he : fallbackSelector = ""
        · rw [if_pos he]
        · rw [if_neg he]
          cases hq : query fallbackSelector with
          | found i => exact absurd hq (h i)
          | missing => rfl
          | thrown => rfl
    have hfs : findSection d query headingText fallbackSelector =
        textResult d headingText := by
      unfold findSection
      rw [hhandle]
    constructor
    · rw [hfs]
      unfold textResult
      cases hts : textSearch d headingText with
      | none => simp
      | some hd => simp
    · intro hd hts
      rw [hfs]
      unfold textResult
      rw [hts]
      show some (climbUp d d.nodes.length (d.parentAt hd) hd) =
        some ((nearestAnchorAncestor d hd).getD hd)
      rw [climbUp_from_parent]

/-- C1 witness: on the example document, the fallback selector case and
the text-search case both behave as stated.  The heading text is found at
the root (node 0), which has no ancestors, so the heading itself is
returned; with a query oracle that finds node 2, node 2 is returned. -/
theorem findSection_spec_witness :
    findSection exDoc (fun _ => QueryOutcome.found 2) "파워링크" ".power_link" = some 2 ∧
    findSection exDoc (fun _ => QueryOutcome.thrown) "파워링크" ".power_link" = some 0 := by
  constructor
  · exact (findSection_spec exDoc (fun _ => QueryOutcome.found 2) "파워링크" ".power_link").1
      2 (by decide) rfl
  · have h := (findSection_spec exDoc (fun _ => QueryOutcome.thrown) "파워링크" ".power_link").2
      (Or.inr fun i hq => QueryOutcome.noConfusion hq)
    rw [h.2 0 (by decide)]
    decide

/-! ## C7 -/

/-- C7: every file variant derives its keyword list from KEYWORDS by the
same pure function: split on ',', trim each segment, drop empty strings;
for every value of KEYWORDS (including absent, `none`) all variants
compute exactly the same list. -/
theorem keywords_parsing_equiv (env : Option String) :
    keywordsCaptureMain env = splitTrimDropEmpty env ∧
    keywordsCapture2Cli env = splitTrimDropEmpty env ∧
    keywordsPart000Cli env = splitTrimDropEmpty env ∧
    keywordsPart001Cli env = splitTrimDropEmpty env ∧
    keywordsPart002Entry env = splitTrimDropEmpty env ∧
    keywordsPart003Entry env = splitTrimDropEmpty env ∧
    keywordsPart004Main env = splitTrimDropEmpty env ∧
    keywordsPart005Entry env = splitTrimDropEmpty env :=
  ⟨rfl, rfl, rfl, rfl, rfl, rfl, rfl, rfl⟩

/-! ## C8 -/

/-- C8 counterexample: a rectangle with non-negative page coordinates
(x = 500, y = 0) and pad = 0 whose element lies beyond the document's
scroll width (docWidth = 400): the clamped clip width is -100, not ≥ 1, so
the clip does not have positive dimensions. -/
theorem clip_bounds_cex :
    (0 : Int) ≤ 500 ∧ (0 : Int) ≤ 0 ∧
    getClipForSection ⟨500, 0, 10, 10, 400, 400⟩ 0 =
      { x := 500, y := 0, width := -100, height := 10 } ∧
    ¬ (1 ≤ (getClipForSection ⟨500, 0, 10, 10, 400, 400⟩ 0).width) := by
  refine ⟨by decide, by decide, by decide, by decide⟩

/-- C8 amended: additionally assuming that the clip origin lies strictly
inside the document (max 0 (x - pad) < docWidth and
max 0 (y - pad) < docHeight — which the counterexample violates), the clip
of `getClipForSection` = `getClipFromRect` satisfies all the claimed
bounds: origin at max(0, coordinate - pad), contained in the document, and
positive dimensions. -/
theorem clip_bounds_amended (r : SectionRect) (pad : Int)
    (_hx : 0 ≤ r.x) (_hy : 0 ≤ r.y) (_hp : 0 ≤ pad)
    (hw : max 0 (r.x - pad) < r.docWidth) (hh : max 0 (r.y - pad) < r.docHeight) :
    (getClipForSection r pad).x = max 0 (r.x - pad) ∧
    (getClipForSection r pad).y = max 0 (r.y - pad) ∧
    (getClipForSection r pad).x + (getClipForSection r pad).width ≤ r.docWidth ∧
    (getClipForSection r pad).y + (getClipForSection r pad).height ≤ r.docHeight ∧
    1 ≤ (getClipForSection r pad).width ∧
    1 ≤ (getClipForSection r pad).height ∧
    getClipFromRect r pad = getClipForSection r pad := by
  unfold getClipForSection getClipFromRect
  refine ⟨rfl, rfl, ?_, ?_, ?_, ?_, rfl⟩ <;> simp only [] <;> omega

/-- C8 witness: a section rectangle well inside the document, with the
padded clip of `captureRectClipPad` (pad = 24 for dsf = 3). -/
theorem clip_bounds_amended_witness :
    getClipForSection ⟨10, 120, 370, 800, 390, 2000⟩ 24 =
      { x := 0, y := 96, width := 390, height := 848 } ∧
    1 ≤ (getClipForSection ⟨10, 120, 370, 800, 390, 2000⟩ 24).width := by
  refine ⟨by decide, ?_⟩
  exact (clip_bounds_amended ⟨10, 120, 370, 800, 390, 2000⟩ 24
    (by decide) (by decide) (by decide) (by decide) (by decide)).2.2.2.2.1

/-! ## C9 -/

/-- C9 counterexample: for the non-numeric string "abc",
`parseInt('abc', 10)` is NaN and the min/max clamp propagates NaN, so the
computed device scale factor is NaN (`none`) and does not satisfy
1 ≤ dsf ≤ 6. -/
theorem dsf_nan_cex :
    dsfOf (some "abc") = none ∧
    ¬ ∃ n : Int, dsfOf (some "abc") = some n ∧ 1 ≤ n ∧ n ≤ 6 := by
  constructor
  · rfl
  · rintro ⟨n, hn, _⟩
    rw [show dsfOf (some "abc") = none from rfl] at hn
    cases hn

/-- C9 amended: whenever `parseInt(value || '3', 10)` yields a number — in
particular for an absent or empty variable (default '3') and for every
numeric string — the clamp produces a dsf with 1 ≤ dsf ≤ 6. -/
theorem dsf_range_amended (env : Option String) (v : Int)
    (h : jsParseInt10 (jsOrDefault env "3") = some v) :
    ∃ n : Int, dsfOf env = some n ∧ 1 ≤ n ∧ n ≤ 6 := by
  refine ⟨max 1 (min 6 v), ?_, ?_, ?_⟩
  · unfold dsfOf
    rw [h]
  · omega
  · omega

/-- C9 witness: the default (absent variable) parses to 3 and yields
dsf = 3; the out-of-range "42" parses and is clamped to 6. -/
theorem dsf_range_amended_witness :
    (∃ n : Int, dsfOf none = some n ∧ 1 ≤ n ∧ n ≤ 6) ∧
    (∃ n : Int, dsfOf (some "42") = some n ∧ 1 ≤ n ∧ n ≤ 6) :=
  ⟨dsf_range_amended none 3 rfl, dsf_range_amended (some "42") 42 rfl⟩

/-! ## C6 supporting lemmas -/

theorem one_lt_length_of_two_mem {α : Type} {l : List α} {a b : α}
    (ha : a ∈ l) (hb : b ∈ l) (hab : a ≠ b) : 1 < l.length := by
  cases l with
  | nil => cases ha
  | cons x tl =>
    cases tl with
    | nil =>
      simp only [List.mem_singleton] at ha hb
      exact absurd (ha.trans hb.symm) hab
    | cons y t =>
      simp only [List.length_cons]
      omega

theorem exists_ne_of_nodup_of_one_lt {α : Type} {l : List α} {i : α}
    (hnd : l.Nodup) (h1 : 1 < l.length) : ∃ j ∈ l, j ≠ i := by
  cases l with
  | nil => simp at h1
  | cons a tl =>
    cases tl with
    | nil => simp at h1
    | cons b t =>
      by_cases hai : a = i
      · refine ⟨b, by simp, ?_⟩
        intro hbi
        rw [List.nodup_cons] at hnd
        exact hnd.1 (by simp [hai, hbi])
      · exact ⟨a, by simp, hai⟩

/-- The code's `siblings.length > 1` test is exactly the claim's "has at
least one sibling of the same tag name", on a well-formed document. -/
theorem hasSib_iff {d : Document} (hwf : d.wf = true)
    {st : String → String → Bool} (hst : ∀ s, st s s = true)
    {i : Nat} {n : DomNode} (hn : d.nodes[i]? = some n) {p : Nat}
    (hp : n.parent = some p) :
    hasSameTagSibling st d i = true ↔ 1 < (sameTagSibs st d p i).length := by
  have hpa : d.parentAt i = some p := by
    unfold Document.parentAt Document.node?
    rw [hn]
    exact hp
  have heq : hasSameTagSibling st d i =
      (d.childrenAt p).any fun j => decide (j ≠ i) && st (d.nameAt j) (d.nameAt i) := by
    unfold hasSameTagSibling
    rw [hpa]
  have hmem : i ∈ d.childrenAt p := wf_mem_children hwf hn hp
  have hnd : (d.childrenAt p).Nodup := wf_children_nodup hwf p
  have hifil : i ∈ sameTagSibs st d p i :=
    List.mem_filter.mpr ⟨hmem, hst _⟩
  rw [heq]
  constructor
  · intro h
    rcases List.any_eq_true.mp h with ⟨j, hjmem, hj⟩
    rw [Bool.and_eq_true, decide_eq_true_eq] at hj
    have hjfil : j ∈ sameTagSibs st d p i := List.mem_filter.mpr ⟨hjmem, hj.2⟩
    exact one_lt_length_of_two_mem hifil hjfil (fun hij => hj.1 hij.symm)
  · intro h1
    have hndf : (sameTagSibs st d p i).Nodup := hnd.filter _
    rcases exists_ne_of_nodup_of_one_lt (i := i) hndf h1 with ⟨j, hjf, hji⟩
    have hj := List.mem_filter.mp hjf
    refine List.any_eq_true.mpr ⟨j, hj.1, ?_⟩
    rw [Bool.and_eq_true, decide_eq_true_eq]
    exact ⟨hji, hj.2⟩

theorem segOf_eq_claimSeg (esc : String → String) {st : String → String → Bool}
    (hst : ∀ s, st s s = true) {d : Document} (hwf : d.wf = true) (i : Nat) :
    segOf esc st d i = claimSeg esc st d i := by
  cases hn : d.nodes[i]? with
  | none => simp [segOf, claimSeg, hn]
  | some n =>
    cases hp : n.parent with
    | none => simp [segOf, claimSeg, hn, hp]
    | some p =>
      have hiff := hasSib_iff hwf hst hn hp
      by_cases hb : 1 < (sameTagSibs st d p i).length
      · have hsibt : hasSameTagSibling st d i = true := hiff.mpr hb
        simp [segOf, claimSeg, hn, hp, hb, hsibt]
      · have hsibf : hasSameTagSibling st d i = false := by
          cases hq : hasSameTagSibling st d i
          · rfl
          · exact absurd (hiff.mp hq) hb
        simp [segOf, claimSeg, hn, hp, hb, hsibf]

theorem buildParts_eq_map (esc : String → String) (st : String → String → Bool)
    (d : Document) :
    ∀ fuel cur, buildParts esc st d fuel cur =
      ((chainFrom d fuel cur).map (segOf esc st d)).reverse := by
  intro fuel
  induction fuel with
  | zero =>
    intro cur
    cases cur with
    | none => simp [buildParts, chainFrom]
    | some i => simp [buildParts, chainFrom]
  | succ f ih =>
    intro cur
    cases cur with
    | none => simp [buildParts, chainFrom]
    | some i =>
      rw [buildParts, chainFrom]
      simp only [List.map_cons, List.reverse_cons]
      rw [ih (d.parentAt i)]

theorem chainFrom_length_le (d : Document) :
    ∀ fuel cur, (chainFrom d fuel cur).length ≤ fuel := by
  intro fuel
  induction fuel with
  | zero =>
    intro cur
    cases cur with
    | none => simp [chainFrom]
    | some i => simp [chainFrom]
  | succ f ih =>
    intro cur
    cases cur with
    | none => simp [chainFrom]
    | some i =>
      rw [chainFrom]
      simp only [List.length_cons]
      exact Nat.succ_le_succ (ih _)

/-! ## C6 -/

/-- C6: the synthesized selector (capture2.js `getUniqueSelector`,
part_001 `makeSel`) equals '#' followed by the escaped id whenever the
element has a non-empty id; otherwise it is a path of at most 5
(capture2.js) resp. 4 (part_001) segments joined by " > ", where each
segment is the lowercase tag name, optionally followed by at most the
first two escaped class names, with an `:nth-of-type(k)` suffix appended
exactly when the element has at least one same-tag sibling (`claimPath`
over `claimSeg` states exactly this shape; capture2.js compares tag names
case-insensitively, part_001 compares raw `nodeName`s). -/
theorem selector_synthesis (esc : String → String) (d : Document)
    (hwf : d.wf = true) (el : Nat) (n : DomNode) (hn : d.nodes[el]? = some n) :
    (n.idAttr ≠ "" →
      getUniqueSelector esc d el = some ("#" ++ esc n.idAttr) ∧
      makeSel esc d el = some ("#" ++ esc n.idAttr)) ∧
    (n.idAttr = "" →
      getUniqueSelector esc d el = some (claimPath esc sameTagCI d 5 el) ∧
      makeSel esc d el = some (claimPath esc sameTagRaw d 4 el) ∧
      (chainFrom d 5 (some el)).length ≤ 5 ∧
      (chainFrom d 4 (some el)).length ≤ 4) := by
  constructor
  · intro hid
    constructor
    · simp [getUniqueSelector, hn, hid]
    · simp [makeSel, hn, hid]
  · intro hid
    have hfunCI : segOf esc sameTagCI d = claimSeg esc sameTagCI d :=
      funext (segOf_eq_claimSeg esc (fun s => by simp [sameTagCI]) hwf)
    have hfunRaw : segOf esc sameTagRaw d = claimSeg esc sameTagRaw d :=
      funext (segOf_eq_claimSeg esc (fun s => by simp [sameTagRaw]) hwf)
    refine ⟨?_, ?_, chainFrom_length_le d 5 (some el), chainFrom_length_le d 4 (some el)⟩
    · simp only [getUniqueSelector, hn, hid, ne_eq, not_true_eq_false, if_false]
      rw [buildParts_eq_map, hfunCI]
      rfl
    · simp only [makeSel, hn, hid, ne_eq, not_true_eq_false, if_false]
      rw [buildParts_eq_map, hfunRaw]
      rfl

/-- C6 witness: on the example document, node 2 (no id, classes a b c,
second UL child of the root div) synthesizes the claimed path, and node 3
(id "hero") synthesizes the escaped-id selector. -/
theorem selector_synthesis_witness :
    exDoc.wf = true ∧
    getUniqueSelector (fun s => s) exDoc 2 = some "div > ul.a.b:nth-of-type(2)" ∧
    makeSel (fun s => s) exDoc 3 = some "#hero" := by
  refine ⟨by decide, ?_, ?_⟩
  · have h := ((selector_synthesis (fun s => s) exDoc (by decide) 2 _ rfl).2 rfl).1
    rw [h]
    decide
  · have h := ((selector_synthesis (fun s => s) exDoc (by decide) 3 _ rfl).1 (by decide)).2
    rw [h]
    decide

/-! ## C2 supporting lemma -/

/-- The strategy outcome recorded for one attempt. -/
def stratRecord (outcome : Strategy → Except String String) (s : Strategy) : StratResult :=
  match outcome s with
  | Except.ok u => { strat := s, ok := true, info := u }
  | Except.error m => { strat := s, ok := false, info := m }

theorem strategyLoop_eq_map (outcome : Strategy → Except String String) :
    ∀ l : List Strategy, strategyLoop outcome l = (l.map (stratRecord outcome), l) := by
  intro l
  induction l with
  | nil => rfl
  | cons s rest ih =>
    simp only [strategyLoop, ih, List.map_cons]
    rfl

/-! ## C2 -/

/-- C2 counterexample: a run in which the selector is resolved on the
first try but the subsequent `page.waitForSelector(selector, ...)` (line
498) throws: the outer catch is taken and no capture strategy is attempted
at all, contradicting "once a section selector is resolved, the five
capture strategies are attempted". -/
theorem runCapture_wait_cex :
    resolveUpTo (fun _ => some "#shp_tli_root") 3 = some "#shp_tli_root" ∧
    (runCapture (fun _ => some "#shp_tli_root") false (fun _ => Except.ok "u")).2 = [] ∧
    (runCapture (fun _ => some "#shp_tli_root") false (fun _ => Except.ok "u")).1 = [] :=
  ⟨rfl, rfl, rfl⟩

/-- C2 amended: once a section selector is resolved *and* the subsequent
`waitForSelector`/stabilization step succeeds, the five strategies
captureElement, captureRectClip, captureRectClipPad, captureRectClipHiDpi,
captureIsolatedDom are attempted in exactly that order; each strategy is
attempted exactly once (no retry, no backoff); a throwing strategy is
recorded as a failure in the results list and the next variant is still
attempted, so the results list is the per-strategy record of the whole
order. -/
theorem runCapture_strategy_order (resolve : Nat → Option String)
    (outcome : Strategy → Except String String) (sel : String)
    (h : resolveUpTo resolve 3 = some sel) :
    (runCapture resolve true outcome).2 = strategyOrder ∧
    (∀ s : Strategy, (runCapture resolve true outcome).2.count s = 1) ∧
    (runCapture resolve true outcome).1 = strategyOrder.map (stratRecord outcome) ∧
    (∀ s m, outcome s = Except.error m →
      ({ strat := s, ok := false, info := m } : StratResult) ∈
        (runCapture resolve true outcome).1) := by
  have hrc : runCapture resolve true outcome = strategyLoop outcome strategyOrder := by
    unfold runCapture
    rw [h]
    rfl
  rw [hrc, strategyLoop_eq_map]
  refine ⟨rfl, ?_, rfl, ?_⟩
  · intro s
    have h2 : (List.map (stratRecord outcome) strategyOrder, strategyOrder).2 =
        strategyOrder := rfl
    rw [h2]
    cases s <;> decide
  · intro s m hm
    have hmem : s ∈ strategyOrder := by cases s <;> simp [strategyOrder]
    refine List.mem_map.mpr ⟨s, hmem, ?_⟩
    unfold stratRecord
    rw [hm]

/-- C2 witness: with the selector resolved at once, the wait succeeding and
captureRectClip throwing "boom", all five strategies are attempted in
order and the rect-clip failure is recorded while later variants still
run. -/
theorem runCapture_strategy_order_witness :
    (runCapture (fun _ => some "#sec") true
        (fun s =>
          match s with
          | Strategy.captureRectClip => Except.error "boom"
          | _ => Except.ok "https://img")).2 = strategyOrder ∧
    ({ strat := Strategy.captureRectClip, ok := false, info := "boom" } : StratResult) ∈
      (runCapture (fun _ => some "#sec") true
        (fun s =>
          match s with
          | Strategy.captureRectClip => Except.error "boom"
          | _ => Except.ok "https://img")).1 := by
  have h := runCapture_strategy_order (fun _ => some "#sec")
    (fun s =>
      match s with
      | Strategy.captureRectClip => Except.error "boom"
      | _ => Except.ok "https://img") "#sec" rfl
  exact ⟨h.1, h.2.2.2 Strategy.captureRectClip "boom" rfl⟩

/-! ## C3 supporting lemmas -/

theorem savedBeforeAdd_append (l2 : List FbEvent) :
    ∀ (l1 : List FbEvent) (saved : List String),
      savedBeforeAdd saved (l1 ++ l2) =
        (savedBeforeAdd saved l1 && savedBeforeAdd (pushSaves saved l1) l2) := by
  intro l1
  induction l1 with
  | nil =>
    intro saved
    simp [savedBeforeAdd, pushSaves]
  | cons e rest ih =>
    intro saved
    cases e with
    | shot s => simp [savedBeforeAdd, pushSaves, ih]
    | save fp => simp [savedBeforeAdd, pushSaves, ih]
    | addDoc kw vp sec fp url =>
      simp [savedBeforeAdd, pushSaves, ih, Bool.and_assoc]

/-- Every per-section trace is self-contained: whatever was saved before,
any metadata write inside it is preceded by its own save. -/
theorem captureSection_saved (b kw vp ts sec : String) (o : SectionOracle) :
    ∀ saved, savedBeforeAdd saved (captureSection b kw vp ts sec o) = true := by
  intro saved
  rcases o with ⟨found, shotOk, saveOk, addOk⟩
  cases found <;> cases shotOk <;> cases saveOk <;> cases addOk <;>
    simp [captureSection, savedBeforeAdd]

/-- The metadata writes a section's trace contributes for a given section
label: one exactly when the whole pipeline succeeded and the labels match,
none otherwise. -/
theorem captureSection_filter (b kw vp ts sec sec' : String) (o : SectionOracle) :
    (captureSection b kw vp ts sec o).filter (isAddFor sec') =
      (if (o.found && o.shotOk && o.saveOk && o.addOk) && decide (sec = sec') then
        [FbEvent.addDoc kw vp sec (sectionFilePath sec vp kw ts)
          (publicUrl b (sectionFilePath sec vp kw ts))]
      else []) := by
  rcases o with ⟨found, shotOk, saveOk, addOk⟩
  cases found <;> cases shotOk <;> cases saveOk <;> cases addOk <;>
    by_cases hs : sec = sec' <;>
      simp [captureSection, isAddFor, hs]

/-! ## C3 -/

/-- C3: in capture.js `captureKeyword`, for every section whose screenshot
succeeds, the PNG is first saved under
`${section}_${viewport}_${keyword}_${timestamp}.png` and exactly one
Firestore document with the matching keyword/viewport/section/filePath/url
fields is added afterwards; every metadata write in the whole trace is
preceded by a successful save of the same path, and when the save fails no
metadata record for that section exists anywhere in the trace. -/
theorem captureKeyword_upload_metadata (b kw vp ts : String)
    (orc : String → SectionOracle) :
    savedBeforeAdd [] (captureKeywordEvents b kw vp ts orc) = true ∧
    (∀ sec, sec ∈ captureJsSections →
      (((orc sec).found = true → (orc sec).shotOk = true → (orc sec).saveOk = true →
        (orc sec).addOk = true →
        captureSection b kw vp ts sec (orc sec) =
          [FbEvent.shot sec,
           FbEvent.save (sectionFilePath sec vp kw ts),
           FbEvent.addDoc kw vp sec (sectionFilePath sec vp kw ts)
             (publicUrl b (sectionFilePath sec vp kw ts))] ∧
        ((captureKeywordEvents b kw vp ts orc).filter (isAddFor sec)).length = 1) ∧
      ((orc sec).saveOk = false →
        ((captureKeywordEvents b kw vp ts orc).filter (isAddFor sec)).length = 0))) := by
  have htr : captureKeywordEvents b kw vp ts orc =
      captureSection b kw vp ts "powerlink" (orc "powerlink") ++
        (captureSection b kw vp ts "pricecompare" (orc "pricecompare") ++ []) := rfl
  constructor
  · rw [htr, savedBeforeAdd_append, savedBeforeAdd_append]
    simp [captureSection_saved, savedBeforeAdd]
  · intro sec hsec
    have hsec2 : sec = "powerlink" ∨ sec = "pricecompare" := by
      simpa [captureJsSections] using hsec
    have hfilter : ∀ sec', ((captureKeywordEvents b kw vp ts orc).filter (isAddFor sec')) =
        ((captureSection b kw vp ts "powerlink" (orc "powerlink")).filter (isAddFor sec') ++
          (captureSection b kw vp ts "pricecompare" (orc "pricecompare")).filter
            (isAddFor sec')) := by
      intro sec'
      rw [htr]
      simp [List.filter_append]
    constructor
    · intro h1 h2 h3 h4
      constructor
      · simp [captureSection, h1, h2, h3, h4]
      · rw [hfilter sec, captureSection_filter, captureSection_filter]
        rcases hsec2 with rfl | rfl
        · simp [h1, h2, h3, h4]
        · simp [h1, h2, h3, h4]
    · intro hsave
      rw [hfilter sec, captureSection_filter, captureSection_filter]
      rcases hsec2 with rfl | rfl
      · simp [hsave]
      · simp [hsave]

/-- C3 witness: with the powerlink section succeeding end-to-end and the
pricecompare section not found, the trace is exactly
shot/save/addDoc with the concrete path and URL, and the whole run
records exactly one powerlink metadata document and no pricecompare
document. -/
theorem captureKeyword_upload_metadata_witness :
    sectionFilePath "powerlink" "pc" "kw" "T" = "powerlink_pc_kw_T.png" ∧
    captureSection "bkt" "kw" "pc" "T" "powerlink" ⟨true, true, true, true⟩ =
      [FbEvent.shot "powerlink",
       FbEvent.save "powerlink_pc_kw_T.png",
       FbEvent.addDoc "kw" "pc" "powerlink" "powerlink_pc_kw_T.png"
         "https://storage.googleapis.com/bkt/powerlink_pc_kw_T.png"] ∧
    ((captureKeywordEvents "bkt" "kw" "pc" "T"
        (fun sec => if sec = "powerlink" then ⟨true, true, true, true⟩
          else ⟨false, true, true, true⟩)).filter (isAddFor "powerlink")).length = 1 := by
  have h := (captureKeyword_upload_metadata "bkt" "kw" "pc" "T"
    (fun sec => if sec = "powerlink" then ⟨true, true, true, true⟩
      else ⟨false, true, true, true⟩)).2 "powerlink" (by decide)
  have hs := h.1 (by decide) (by decide) (by decide) (by decide)
  refine ⟨by decide, ?_, hs.2⟩
  have heq := hs.1
  have hred : (if "powerlink" = "powerlink" then
      (⟨true, true, true, true⟩ : SectionOracle)
      else ⟨false, true, true, true⟩) = (⟨true, true, true, true⟩ : SectionOracle) := by decide
  rw [hred] at heq
  rw [heq]
  decide

/-! ## C4 / C5 supporting lemmas -/

theorem startsOf_append (l1 l2 : List MainEv) :
    startsOf (l1 ++ l2) = startsOf l1 ++ startsOf l2 := by
  simp [startsOf]

theorem startsOf_cons_start (kw vp : String) (l : List MainEv) :
    startsOf (MainEv.start kw vp :: l) = (kw, vp) :: startsOf l := by
  simp [startsOf, List.filterMap_cons]

theorem startsOf_fbmap (kw vp : String) (evs : List FbEvent) :
    startsOf (evs.map (MainEv.fb kw vp)) = [] := by
  induction evs with
  | nil => rfl
  | cons e r ih => simp [startsOf, List.filterMap_cons, ih]

theorem startsOf_block (b kw vp ts : String) (g : Bool) (orc : String → SectionOracle) :
    startsOf (captureKeywordTrace b kw vp ts g orc) = [(kw, vp)] := by
  cases g with
  | false => rfl
  | true =>
    rw [show captureKeywordTrace b kw vp ts true orc =
        MainEv.start kw vp ::
          ((captureKeywordEvents b kw vp ts orc).map (MainEv.fb kw vp) ++
            [MainEv.closeBrowser kw vp]) from rfl]
    rw [startsOf_cons_start, startsOf_append, startsOf_fbmap]
    rfl

theorem mainTrace_cons (b ts k : String) (rest : List String)
    (g : String → String → Bool) (orc : String → String → String → SectionOracle) :
    mainTrace b ts (k :: rest) g orc =
      captureKeywordTrace b k "pc" ts (g k "pc") (orc k "pc") ++
        (captureKeywordTrace b k "mobile" ts (g k "mobile") (orc k "mobile") ++
          mainTrace b ts rest g orc) := by
  simp [mainTrace, pairsOf, viewportLabels]

theorem startsOf_mainTrace (b ts : String) (g : String → String → Bool)
    (orc : String → String → String → SectionOracle) :
    ∀ kws, startsOf (mainTrace b ts kws g orc) =
      (kws.map fun k => [(k, "pc"), (k, "mobile")]).flatten := by
  intro kws
  induction kws with
  | nil => rfl
  | cons k rest ih =>
    rw [mainTrace_cons, startsOf_append, startsOf_append, startsOf_block, startsOf_block, ih]
    rfl

theorem noOverlap_fbmap (kw vp : String) :
    ∀ (evs : List FbEvent) (rest : List MainEv),
      noOverlap (some (kw, vp)) ((evs.map (MainEv.fb kw vp)) ++ rest) =
        noOverlap (some (kw, vp)) rest := by
  intro evs
  induction evs with
  | nil => intro rest; rfl
  | cons e r ih =>
    intro rest
    simp [noOverlap, ih]

theorem noOverlap_nil (cur : Option (String × String)) : noOverlap cur [] = true := by
  cases cur <;> rfl

theorem noOverlap_start (cur : Option (String × String)) (k v : String) (l : List MainEv) :
    noOverlap cur (MainEv.start k v :: l) = noOverlap (some (k, v)) l := by
  cases cur <;> rfl

theorem noOverlap_close_self (k v : String) (l : List MainEv) :
    noOverlap (some (k, v)) (MainEv.closeBrowser k v :: l) =
      noOverlap (some (k, v)) l := by
  simp [noOverlap]

theorem noOverlap_blocks (b ts : String) (g : String → String → Bool)
    (orc : String → String → String → SectionOracle) :
    ∀ (ps : List (String × String)) (cur : Option (String × String)),
      noOverlap cur ((ps.map fun p =>
        captureKeywordTrace b p.1 p.2 ts (g p.1 p.2) (orc p.1 p.2)).flatten) = true := by
  intro ps
  induction ps with
  | nil =>
    intro cur
    exact noOverlap_nil cur
  | cons p rest ih =>
    intro cur
    have hstep : (((p :: rest).map fun q =>
        captureKeywordTrace b q.1 q.2 ts (g q.1 q.2) (orc q.1 q.2)).flatten) =
        captureKeywordTrace b p.1 p.2 ts (g p.1 p.2) (orc p.1 p.2) ++
          ((rest.map fun q =>
            captureKeywordTrace b q.1 q.2 ts (g q.1 q.2) (orc q.1 q.2)).flatten) := by
      simp
    rw [hstep]
    cases hg : g p.1 p.2 with
    | false =>
      rw [show captureKeywordTrace b p.1 p.2 ts false (orc p.1 p.2) =
          [MainEv.start p.1 p.2] from rfl]
      rw [List.singleton_append, noOverlap_start]
      exact ih (some (p.1, p.2))
    | true =>
      rw [show captureKeywordTrace b p.1 p.2 ts true (orc p.1 p.2) =
          MainEv.start p.1 p.2 ::
            ((captureKeywordEvents b p.1 p.2 ts (orc p.1 p.2)).map (MainEv.fb p.1 p.2) ++
              [MainEv.closeBrowser p.1 p.2]) from rfl]
      rw [List.cons_append, noOverlap_start, List.append_assoc, noOverlap_fbmap,
        List.singleton_append, noOverlap_close_self]
      exact ih (some (p.1, p.2))

theorem block_getLast (b kw vp ts : String) (orc : String → SectionOracle) :
    (captureKeywordTrace b kw vp ts true orc).getLast? =
      some (MainEv.closeBrowser kw vp) := by
  rw [show captureKeywordTrace b kw vp ts true orc =
      (MainEv.start kw vp ::
        (captureKeywordEvents b kw vp ts orc).map (MainEv.fb kw vp)) ++
        [MainEv.closeBrowser kw vp] from rfl]
  rw [List.getLast?_concat]

theorem block_head (b kw vp ts : String) (g : Bool) (orc : String → SectionOracle) :
    (captureKeywordTrace b kw vp ts g orc).head? = some (MainEv.start kw vp) := rfl

/-! ## C4 -/

/-- C4 counterexample: when navigation (`page.goto`, line 89, not guarded
inside `captureKeyword`) throws for every pair, the error propagates to
main's catch and `browser.close()` is never reached: the trace contains
the four `start` events in order but no `closeBrowser` event at all, so
the next pair begins although the previous invocation did not run to
completion with its browser closed. -/
theorem main_browser_close_cex :
    mainTrace "b" "T" ["k1", "k2"] (fun _ _ => false)
      (fun _ _ _ => ⟨true, true, true, true⟩) =
      [MainEv.start "k1" "pc", MainEv.start "k1" "mobile",
       MainEv.start "k2" "pc", MainEv.start "k2" "mobile"] ∧
    (mainTrace "b" "T" ["k1", "k2"] (fun _ _ => false)
      (fun _ _ _ => ⟨true, true, true, true⟩)).countP
      (fun e => match e with | MainEv.closeBrowser _ _ => true | _ => false) = 0 :=
  ⟨rfl, rfl⟩

/-- C4 amended: the entry point processes the (keyword, viewport) pairs
strictly sequentially — keywords in list order, 'pc' before 'mobile' — and
captures never overlap: every event belongs to the most recently started
pair.  Each invocation's trace begins with its `start`; when `page.goto`
succeeds the invocation's trace ends with `closeBrowser`, so the browser
is closed before the next pair begins; when `page.goto` throws, the
invocation still ends before the next pair begins but without closing the
browser. -/
theorem main_sequential_amended (b ts : String) (kws : List String)
    (g : String → String → Bool) (orc : String → String → String → SectionOracle) :
    startsOf (mainTrace b ts kws g orc) =
      (kws.map fun k => [(k, "pc"), (k, "mobile")]).flatten ∧
    noOverlap none (mainTrace b ts kws g orc) = true ∧
    (∀ kw vp, g kw vp = true →
      (captureKeywordTrace b kw vp ts (g kw vp) (orc kw vp)).getLast? =
        some (MainEv.closeBrowser kw vp)) ∧
    (∀ kw vp, (captureKeywordTrace b kw vp ts (g kw vp) (orc kw vp)).head? =
      some (MainEv.start kw vp)) := by
  refine ⟨startsOf_mainTrace b ts g orc kws,
    noOverlap_blocks b ts g orc (pairsOf kws) none, ?_, ?_⟩
  · intro kw vp hg
    rw [hg]
    exact block_getLast b kw vp ts (orc kw vp)
  · intro kw vp
    exact block_head b kw vp ts (g kw vp) (orc kw vp)

/-- C4 witness: one keyword, navigation succeeding: pairs are started in
order pc, mobile and the pc invocation's trace ends with its browser
close. -/
theorem main_sequential_amended_witness :
    startsOf (mainTrace "b" "T" ["k1"] (fun _ _ => true)
      (fun _ _ _ => ⟨true, true, true, true⟩)) = [("k1", "pc"), ("k1", "mobile")] ∧
    noOverlap none (mainTrace "b" "T" ["k1"] (fun _ _ => true)
      (fun _ _ _ => ⟨true, true, true, true⟩)) = true ∧
    (captureKeywordTrace "b" "k1" "pc" "T" true
      (fun _ => ⟨true, true, true, true⟩)).getLast? =
      some (MainEv.closeBrowser "k1" "pc") := by
  have h := main_sequential_amended "b" "T" ["k1"] (fun _ _ => true)
    (fun _ _ _ => ⟨true, true, true, true⟩)
  exact ⟨h.1.trans rfl, h.2.1, h.2.2.1 "k1" "pc" rfl⟩

/-! ## C5 -/

/-- C5: the capture2.js CLI derives its target list (a `--url` argument
wins, then `--keyword`, then the KEYWORDS list; an empty list exits), runs
the plain loop over it — which processes exactly the targets, in order,
each exactly once, and terminates (the loop is structural recursion over
the finite list) — and never re-schedules or polls a target.  For the
capture.js-style entry points, the processed (keyword, viewport) blocks of
the run are exactly the keyword list in order, once each. -/
theorem cli_one_shot (u k e : Option String) (ts : List String)
    (h : cliTargets u k e = some ts) :
    runTargetsLoop ts = ts ∧
    (∀ t, (runTargetsLoop ts).count t = ts.count t) ∧
    (jsTruthy u = true → ts = [u.getD ""]) ∧
    (jsTruthy u = false → jsTruthy k = true → ts = [k.getD ""]) ∧
    (jsTruthy u = false → jsTruthy k = false →
      ts = keywordsCapture2Cli e ∧ ts ≠ []) ∧
    (∀ b ts2 g orc, startsOf (mainTrace b ts2 ts g orc) =
      (ts.map fun t => [(t, "pc"), (t, "mobile")]).flatten) := by
  have hloop : ∀ l : List String, runTargetsLoop l = l := by
    intro l
    induction l with
    | nil => rfl
    | cons t r ih => rw [runTargetsLoop, ih]
  refine ⟨hloop ts, fun t => by rw [hloop ts], ?_, ?_, ?_,
    fun b ts2 g orc => startsOf_mainTrace b ts2 g orc ts⟩
  · intro hu
    unfold cliTargets at h
    rw [if_pos hu] at h
    exact (Option.some.inj h).symm
  · intro hu hk
    have hnu : ¬ (jsTruthy u = true) := by simp [hu]
    unfold cliTargets at h
    rw [if_neg hnu, if_pos hk] at h
    exact (Option.some.inj h).symm
  · intro hu hk
    have hnu : ¬ (jsTruthy u = true) := by simp [hu]
    have hnk : ¬ (jsTruthy k = true) := by simp [hk]
    unfold cliTargets at h
    rw [if_neg hnu, if_neg hnk] at h
    cases hl : keywordsCapture2Cli e with
    | nil =>
      rw [hl] at h
      simp at h
    | cons a r =>
      rw [hl] at h
      simp at h
      refine ⟨h.symm, ?_⟩
      rw [← h]
      exact List.cons_ne_nil a r

/-- C5 witness: a `--url` invocation yields the singleton target list and
the loop processes exactly it. -/
theorem cli_one_shot_witness :
    cliTargets (some "https://m.search.naver.com/x") none none =
      some ["https://m.search.naver.com/x"] ∧
    runTargetsLoop ["https://m.search.naver.com/x"] = ["https://m.search.naver.com/x"] := by
  refine ⟨rfl, ?_⟩
  exact (cli_one_shot (some "https://m.search.naver.com/x") none none
    ["https://m.search.naver.com/x"] rfl).1

/-! ## C10 -/

def isFirestoreAdd : UpEvent → Bool
  | UpEvent.firestoreAdd _ _ => true
  | _ => false

/-- C10 counterexample: part_001's `uploadPNG` only short-circuits on the
exact value DRY_RUN === '1'.  With DRY_RUN set to "true" (set, and truthy
in capture2.js's sense) it performs the storage-bucket save and the
Firestore write, contradicting the claim that a set DRY_RUN skips them. -/
theorem uploadPNG_dryrun_cex :
    jsTruthy (some "true") = true ∧
    ((uploadPNG ⟨some "true", none, "", "bkt"⟩ ⟨true, true, true, true⟩
      "kw" "v" "T").2.any isBucketSave) = true ∧
    ((uploadPNG ⟨some "true", none, "", "bkt"⟩ ⟨true, true, true, true⟩
      "kw" "v" "T").2.any isFirestoreAdd) = true :=
  ⟨rfl, rfl, rfl⟩

/-- C10 amended: capture2.js's `uploadImage` treats any truthy (non-empty)
DRY_RUN as dry-run, while part_001's `uploadPNG` does so only for the
exact value '1'.  Under the respective dry-run condition, the PNG is
written to the local captures directory and the call returns at once with
a null (capture2.js) or `file://` (part_001) url, performing no
storage-bucket save, no makePublic/getSignedUrl call and no Firestore
write (the trace is exactly the one local write).  Otherwise the image is
written locally, saved to the bucket, a URL is obtained, and a Firestore
add is performed (for capture2.js when `db` was initialised). -/
theorem upload_dryrun_amended (env : UpEnv) (orc : UpOracle) (kw v ts : String) :
    (jsTruthy env.dryRun = true →
      uploadImage env orc kw v ts =
        (Except.ok { url := none,
                     gcsPath := some (gcsPathOf env.capPfx (fileName2 kw v ts)),
                     localPath := "captures/" ++ fileName2 kw v ts },
         [UpEvent.localWrite ("captures/" ++ fileName2 kw v ts)])) ∧
    (env.dryRun = some "1" →
      uploadPNG env orc kw v ts =
        (Except.ok { url := some ("file://" ++ ("captures/" ++ fileName1 kw v ts)),
                     gcsPath := none,
                     localPath := "captures/" ++ fileName1 kw v ts },
         [UpEvent.localWrite ("captures/" ++ fileName1 kw v ts)])) ∧
    (jsTruthy env.dryRun = false → orc.saveOk = true → orc.dbReady = true →
      (uploadImage env orc kw v ts).2 =
        UpEvent.localWrite ("captures/" ++ fileName2 kw v ts) ::
          UpEvent.bucketSave (gcsPathOf env.capPfx (fileName2 kw v ts)) ::
          (urlEventsOf env orc (gcsPathOf env.capPfx (fileName2 kw v ts))).1 ++
            [UpEvent.firestoreAdd "screenshots"
              (gcsPathOf env.capPfx (fileName2 kw v ts))] ∧
      (uploadImage env orc kw v ts).1 =
        Except.ok { url := some (urlEventsOf env orc
                      (gcsPathOf env.capPfx (fileName2 kw v ts))).2,
                    gcsPath := some (gcsPathOf env.capPfx (fileName2 kw v ts)),
                    localPath := "captures/" ++ fileName2 kw v ts }) ∧
    (env.dryRun = none → orc.saveOk = true →
      (uploadPNG env orc kw v ts).2 =
        UpEvent.localWrite ("captures/" ++ fileName1 kw v ts) ::
          UpEvent.bucketSave (gcsPathOf env.capPfx (fileName1 kw v ts)) ::
          (urlEventsOf env orc (gcsPathOf env.capPfx (fileName1 kw v ts))).1 ++
            [UpEvent.firestoreAdd "screenshots"
              (gcsPathOf env.capPfx (fileName1 kw v ts))]) := by
  refine ⟨?_, ?_, ?_, ?_⟩
  · intro hd
    simp [uploadImage, hd]
  · intro hd
    simp [uploadPNG, hd]
  · intro hd hs hdb
    have hnd : ¬ (jsTruthy env.dryRun = true) := by simp [hd]
    constructor
    · simp [uploadImage, hnd, hs, hdb]
    · simp [uploadImage, hnd, hs, hdb]
  · intro hd hs
    have hne : ¬ (env.dryRun = some "1") := by simp [hd]
    simp only [uploadPNG, hne, hs]
    cases ha : orc.addOk <;> simp [ha]

/-- C10 witness: with DRY_RUN="1", capture2.js's uploadImage writes only
the local file and returns a null url; with DRY_RUN unset it saves to the
bucket and writes the Firestore document. -/
theorem upload_dryrun_amended_witness :
    uploadImage ⟨some "1", none, "", "bkt"⟩ ⟨true, true, true, true⟩ "kw" "v" "T" =
      (Except.ok { url := none,
                   gcsPath := some (gcsPathOf "" (fileName2 "kw" "v" "T")),
                   localPath := "captures/" ++ fileName2 "kw" "v" "T" },
       [UpEvent.localWrite ("captures/" ++ fileName2 "kw" "v" "T")]) ∧
    ((uploadImage ⟨some "1", none, "", "bkt"⟩ ⟨true, true, true, true⟩
      "kw" "v" "T").2.any isBucketSave) = false ∧
    ((uploadImage ⟨none, none, "", "bkt"⟩ ⟨true, true, true, true⟩
      "kw" "v" "T").2.any isBucketSave) = true ∧
    ((uploadImage ⟨none, none, "", "bkt"⟩ ⟨true, true, true, true⟩
      "kw" "v" "T").2.any isFirestoreAdd) = true := by
  have h1 := (upload_dryrun_amended ⟨some "1", none, "", "bkt"⟩
    ⟨true, true, true, true⟩ "kw" "v" "T").1 rfl
  refine ⟨h1, ?_, ?_, ?_⟩
  · rw [h1]
    rfl
  · have h2 := ((upload_dryrun_amended ⟨none, none, "", "bkt"⟩
      ⟨true, true, true, true⟩ "kw" "v" "T").2.2.1 rfl rfl rfl).1
    rw [h2]
    rfl
  · have h2 := ((upload_dryrun_amended ⟨none, none, "", "bkt"⟩
      ⟨true, true, true, true⟩ "kw" "v" "T").2.2.1 rfl rfl rfl).1
    rw [h2]
    rfl

end Searcap
